import Mathlib

/-!
Verification of the FedLab hierarchical communication core.

Shallow embedding of:
- `fedlab/core/server/hierarchical/connector.py` (`ClientConnector`, `ServerConnector`)
- `fedlab_core/client/manager.py` (`ClientPassiveManager`, `ClientActiveManager`)
- `fedlab_core/communicator/memory.py` (`Memory`)
- `fedlab/utils/functional.py` (`AverageMeter`)

The `Coordinator` and `MessageCode` classes are imported by `connector.py` /
`manager.py` but their defining modules are not among the provided sources;
they are modelled from the specification where noted.
-/

/-- Modelled from the spec: `MessageCode` (module `fedlab_utils.message_code`,
not among the provided sources) is "a closed enumeration of protocol verbs:
`ParameterRequest`, `ParameterUpdate`, `Exit`, plus room for deployment-specific
control verbs"; only identity matters for dispatch. -/
inductive MessageCode where
  | ParameterRequest
  | ParameterUpdate
  | Exit
  | GradientUpdate
  | EvaluateParams
deriving DecidableEq, Repr

/-- A wire buffer. A payload buffer is either a one-dimensional integer tensor
(what `torch.Tensor(values).to(torch.int32)` produces, and what an identity
declaration carries) or an arbitrary tensor abstracted by an identifier
(model parameters, timestamps, ...). -/
inductive Tensor where
  | i32 (xs : List Int)
  | blob (id : Nat)
deriving DecidableEq, Repr

/-- Semantics of `.item()` on a payload buffer: defined exactly on
single-element integer tensors, as used by `ClientConnector.setup`
(`content[0].item()`). -/
def Tensor.item : Tensor → Option Int
  | Tensor.i32 [x] => some x
  | _ => none

/-- Wrap-around of `.to(torch.int32)`: two's-complement 32-bit truncation. -/
def toInt32 (x : Int) : Int := (x + 2 ^ 31) % 2 ^ 32 - 2 ^ 31

/-- Modelled from the spec: the `Coordinator` class (module
`fedlab.core.coordinator`, not among the provided sources) "owns a
bidirectional mapping Rank → set-of-LogicalId built once during setup via a
handshake"; the assignment keeps, per rank, the announced LogicalIds. -/
structure Coordinator where
  assignment : List (Nat × List Int)
deriving DecidableEq, Repr

/-- Modelled from the spec: the Coordinator is built by `ClientConnector.setup`
from a mapping holding one integer LogicalId per rank ("a handshake value is a
single integer LogicalId per rank"); build "fails with `DuplicateIdentity` if
two ranks report overlapping LogicalIds" — here `none` when two ranks declare
the same LogicalId. -/
def Coordinator.ofRankIdMap (m : List (Nat × Int)) : Option Coordinator :=
  if (m.map Prod.snd).Nodup then some ⟨m.map (fun p => (p.1, [p.2]))⟩
  else none

/-- Modelled from the spec: the owning Rank of a LogicalId (reverse lookup
derived from the Rank → set-of-LogicalId mapping). -/
def Coordinator.owner (c : Coordinator) (i : Int) : Option Nat :=
  (c.assignment.find? (fun p => p.2.contains i)).map Prod.fst

/-- Modelled from the spec: `total()` is the "count of distinct LogicalIds
known". -/
def Coordinator.total (c : Coordinator) : Nat :=
  ((c.assignment.map Prod.snd).flatten).dedup.length

/-- Modelled from the spec: `mapIdList(ids)` "groups requested LogicalIds by
their owning Rank, preserving the relative order within each group", failing
with `UnknownIdentity` (here `none`) "if any id is not present". Groups are
keyed by owning rank, one group per distinct owning rank, in order of first
appearance. -/
def Coordinator.map_id_list (c : Coordinator) (ids : List Int) :
    Option (List (Nat × List Int)) :=
  if ids.all (fun i => (c.owner i).isSome) then
    some ((ids.filterMap c.owner).dedup.map
      (fun r => (r, ids.filter (fun i => c.owner i = some r))))
  else none

/-- An item of a Connector message queue: the `(sender, message_code, payload)`
tuple placed on `mq_write` / taken from `mq_read`. -/
structure QueueItem where
  sender : Nat
  message_code : MessageCode
  payload : List Tensor
deriving DecidableEq, Repr

/-- One call `self._network.send(content=..., message_code=..., dst=...)`. -/
structure SendEvent where
  dst : Nat
  message_code : MessageCode
  content : List Tensor
deriving DecidableEq, Repr

/-- One iteration of `ClientConnector.deal_queue` on a dequeued item
(`connector.py` lines 121-134): split `payload[0]` (the id list) from
`payload[1:]`, group the ids by rank with `coordinator.map_id_list`, and for
each `(rank, values)` of the grouping send `[int32-tensor(values)] ++ rest`
with the original message code to that rank. Returns `none` where the Python
would raise (empty payload, non-id-list head, unknown identity). -/
def clientDealQueueStep (coord : Coordinator) (item : QueueItem) :
    Option (List SendEvent) :=
  match item.payload with
  | [] => none
  | head :: rest =>
    match head with
    | Tensor.i32 ids =>
      match coord.map_id_list ids with
      | some rank_dict =>
        some (rank_dict.map (fun p =>
          { dst := p.1
            message_code := item.message_code
            content := Tensor.i32 (p.2.map toInt32) :: rest }))
      | none => none
    | Tensor.blob _ => none

/-- One iteration of `ServerConnector.deal_queue` on a dequeued item
(`connector.py` lines 176-182): forward the payload, with the original
message code, to rank 0; the sender rank is dropped. -/
def serverDealQueueStep (item : QueueItem) : SendEvent :=
  { dst := 0, message_code := item.message_code, content := item.payload }

/-- `ServerConnector.deal_queue` over a finite prefix of the read queue:
one send per dequeued item, in dequeue order. -/
def serverDealQueue (items : List QueueItem) : List SendEvent :=
  items.map serverDealQueueStep

/-- The attached handler's state, as far as `ClientConnector.setup` touches it:
its mutable `client_num_in_total` field. -/
structure Handler where
  client_num_in_total : Nat
deriving DecidableEq, Repr

/-- A transcript of the child-facing transport: what `self._network.recv(src=r)`
returns for each source rank, as a `(sender, message_code, content)` tuple. -/
def RecvEnv : Type := Nat → Nat × MessageCode × List Tensor

/-- The identity value `ClientConnector.setup` extracts from rank `r`'s
declaration: `content[0].item()`; `none` where the Python would raise. -/
def recvIdentity (recv : RecvEnv) (r : Nat) : Option Int :=
  ((recv r).2.2).head?.bind Tensor.item

/-- The receive loop of `ClientConnector.setup` over a list of source ranks.
Returns the ranks actually passed to `recv(src=...)`, in call order, together
with the accumulated `rank_client_id_map` (`none` when `content[0].item()`
raises, at which point the loop stops). -/
def clientSetupLoop (recv : RecvEnv) : List Nat → List Nat × Option (List (Nat × Int))
  | [] => ([], some [])
  | r :: rs =>
    match recvIdentity recv r with
    | none => ([r], none)
    | some v =>
      let rest := clientSetupLoop recv rs
      (r :: rest.1, rest.2.map (fun t => (r, v) :: t))

/-- `ClientConnector.setup` (`connector.py` lines 89-97): receive one identity
declaration from every rank in `range(1, world_size)`, build the Coordinator
from the resulting rank → identity map, and, when a handler is attached, set
its `client_num_in_total` to the Coordinator's total. Returns the list of
`recv` calls made (in order) and, on success, the Coordinator and the updated
handler. -/
def clientConnectorSetup (world_size : Nat) (recv : RecvEnv)
    (handler : Option Handler) :
    List Nat × Option (Coordinator × Option Handler) :=
  let res := clientSetupLoop recv (List.range' 1 (world_size - 1))
  match res.2 with
  | none => (res.1, none)
  | some m =>
    match Coordinator.ofRankIdMap m with
    | none => (res.1, none)
    | some coord =>
      (res.1, some (coord,
        handler.map (fun h => { h with client_num_in_total := coord.total })))

/-- Failure kinds a Connector lifecycle entry point could report. The spec
names `LifecycleViolation` for out-of-order lifecycle calls; `handshakeFailure`
models a crash of the setup handshake itself. -/
inductive ConnError where
  | lifecycleViolation
  | handshakeFailure
deriving DecidableEq, Repr

/-- State of a `ClientConnector` as relevant to lifecycle order: the
`coordinator` field is `None` until `setup` has completed. -/
structure ClientConnectorState where
  coordinator : Option Coordinator
  handler : Option Handler
deriving DecidableEq, Repr

/-- Entry of `ClientConnector.main_loop` (`connector.py` lines 99-103): its
first action is `self.setup()` — unconditionally, with no check of the current
lifecycle state — after which the queue-watching thread starts. The result is
the connector state at the point the receive loop begins; `handshakeFailure`
models a raise inside `setup` itself. -/
def clientConnectorMainLoopEntry (world_size : Nat) (recv : RecvEnv)
    (st : ClientConnectorState) : Except ConnError ClientConnectorState :=
  match (clientConnectorSetup world_size recv st.handler).2 with
  | none => Except.error ConnError.handshakeFailure
  | some (coord, h) => Except.ok { coordinator := some coord, handler := h }

/-- State of a `ServerConnector` as relevant to lifecycle order: whether the
queue-watching thread has been started. Its `setup` is a pass-through with no
state of its own. -/
structure ServerConnectorState where
  watching_queue_started : Bool
deriving DecidableEq, Repr

/-- Entry of `ServerConnector.main_loop` (`connector.py` lines 159-167): it
starts the queue-watching thread and enters the receive loop directly, with no
lifecycle check and no setup of its own. -/
def serverConnectorMainLoopEntry (st : ServerConnectorState) :
    Except ConnError ServerConnectorState :=
  Except.ok { st with watching_queue_started := true }

/-- Observable actions of a client manager process: a transport send (one
`PackageProcessor.send_package(pack, dst=...)`, recorded with the package's
message code and tensor list), a training-step invocation (recorded with the
parameters passed to `handler.train`), and process termination (`exit(0)`). -/
inductive ClientEvent where
  | sent (dst : Nat) (message_code : MessageCode) (content : List Tensor)
  | trained (params : Tensor)
  | exited
deriving DecidableEq, Repr

/-- Outcome of one loop iteration of a client manager: continue with a new
local state, terminate the process, or crash with an uncaught exception; each
carries the events emitted during the iteration, in order. -/
inductive StepResult (σ : Type) where
  | ok (events : List ClientEvent) (next : σ)
  | exitProc (events : List ClientEvent)
  | err (events : List ClientEvent)
deriving DecidableEq, Repr

/-- One iteration of the `while True` loop of `ClientPassiveManager.run`
(`manager.py` lines 51-66), driven by the message `recv_package(src=0)`
returns. `train : M → Tensor → M` is the handler's training step acting on the
handler's model state, `ser : M → Tensor` is
`SerializationTool.serialize_model`. On `Exit` the process calls `exit(0)`;
otherwise `on_receive` trains on `payload[0]` and `synchronize` sends one
`ParameterUpdate` with the serialized model to rank 0. -/
def passiveRunIter {M : Type} (train : M → Tensor → M) (ser : M → Tensor)
    (st : M) (msg : Nat × MessageCode × List Tensor) : StepResult M :=
  let code := msg.2.1
  let payload := msg.2.2
  if code = MessageCode.Exit then
    StepResult.exitProc [ClientEvent.exited]
  else
    match payload with
    | p :: _ =>
      let st2 := train st p
      StepResult.ok
        [ClientEvent.trained p,
         ClientEvent.sent 0 MessageCode.ParameterUpdate [ser st2]] st2
    | [] => StepResult.err []

/-- Local state of a `ClientActiveManager`: the handler's model state and the
`model_gen_time` field (initially `None`). -/
structure ActiveState (M : Type) where
  model : M
  model_gen_time : Option Tensor
deriving DecidableEq, Repr

/-- One iteration of the `while True` loop of `ClientActiveManager.run`
(`manager.py` lines 125-143): `request_model` first sends a `ParameterRequest`
to rank 0; then a package is received; on `Exit` the process calls `exit(0)`;
otherwise `on_receive` stores `payload[1]` in `model_gen_time` and trains on
`payload[0]` (passing `epochs`), and `synchronize` sends one `ParameterUpdate`
to rank 0 carrying the serialized model followed by `model_gen_time`. A
payload with fewer than two elements makes `on_receive` raise. -/
def activeRunIter {M : Type} (train : Option Nat → M → Tensor → M)
    (ser : M → Tensor) (epochs : Option Nat) (st : ActiveState M)
    (msg : Nat × MessageCode × List Tensor) : StepResult (ActiveState M) :=
  let req := ClientEvent.sent 0 MessageCode.ParameterRequest []
  let code := msg.2.1
  let payload := msg.2.2
  if code = MessageCode.Exit then
    StepResult.exitProc [req, ClientEvent.exited]
  else
    match payload with
    | p :: g :: _ =>
      let m2 := train epochs st.model p
      StepResult.ok
        [req, ClientEvent.trained p,
         ClientEvent.sent 0 MessageCode.ParameterUpdate [ser m2, g]]
        { model := m2, model_gen_time := some g }
    | _ => StepResult.err [req]

/-- The trace of `ClientPassiveManager.run` over a finite list of incoming
messages: iterations run in sequence until the process exits or crashes. -/
def passiveRun {M : Type} (train : M → Tensor → M) (ser : M → Tensor) :
    M → List (Nat × MessageCode × List Tensor) → List ClientEvent
  | _, [] => []
  | st, m :: ms =>
    match passiveRunIter train ser st m with
    | StepResult.ok evs st2 => evs ++ passiveRun train ser st2 ms
    | StepResult.exitProc evs => evs
    | StepResult.err evs => evs

/-- The trace of `ClientActiveManager.run` over a finite list of incoming
messages. -/
def activeRun {M : Type} (train : Option Nat → M → Tensor → M)
    (ser : M → Tensor) (epochs : Option Nat) :
    ActiveState M → List (Nat × MessageCode × List Tensor) → List ClientEvent
  | _, [] => []
  | st, m :: ms =>
    match activeRunIter train ser epochs st m with
    | StepResult.ok evs st2 => evs ++ activeRun train ser epochs st2 ms
    | StepResult.exitProc evs => evs
    | StepResult.err evs => evs

/-- Whether an event is a `ParameterUpdate` send. -/
def ClientEvent.isParamUpdateSend : ClientEvent → Bool
  | ClientEvent.sent _ MessageCode.ParameterUpdate _ => true
  | _ => false

/-- Holds when no `ParameterUpdate` send occurs anywhere after an `exited`
event in a trace. -/
def noParamUpdateAfterExit : List ClientEvent → Bool
  | [] => true
  | ClientEvent.exited :: rest =>
      rest.all (fun e => !e.isParamUpdateSend) && noParamUpdateAfterExit rest
  | _ :: rest => noParamUpdateAfterExit rest

namespace Memory

/-- The base `Memory.initialize` (`memory.py`): a static method whose body is
`pass`; it accepts any arguments and does nothing. (Named `init` here because
its Python name is a reserved word in Lean.) -/
def init {α : Type} (_args : List α) : Unit := ()

/-- The base `Memory.compensate` (`memory.py`): returns its tensor argument
unchanged, whatever the extra arguments are. -/
def compensate {τ α : Type} (tensor : τ) (_args : List α) : τ := tensor

/-- The base `Memory.update` (`memory.py`): a static method whose body is
`pass`. -/
def update {α : Type} (_args : List α) : Unit := ()

/-- The base `Memory.state_dict` (`memory.py`): returns `None`. -/
def state_dict {σ : Type} : Option σ := none

/-- The base `Memory.load_state_dict` (`memory.py`): body is `pass`. -/
def load_state_dict {σ : Type} (_sd : Option σ) : Unit := ()

end Memory

/-- `AverageMeter` (`functional.py` lines 18-34): the four tracked statistics.
Python floats are embedded as exact rationals. -/
structure AverageMeter where
  val : ℚ
  avg : ℚ
  sum : ℚ
  count : ℚ
deriving DecidableEq, Repr

/-- `AverageMeter.reset`: sets `val`, `avg`, `sum` to `0.0` and `count` to
`0.`; `__init__` calls it to produce the initial state. -/
def AverageMeter.reset (_m : AverageMeter) : AverageMeter :=
  { val := 0, avg := 0, sum := 0, count := 0 }

/-- `AverageMeter.update(val, n)`: `val := val; sum += val*n; count += n;
avg = sum/count`. When the new count is zero the division `sum / count`
raises `ZeroDivisionError`, modelled by `none` (the fields mutated before the
raise are lost with the process). -/
def AverageMeter.update (m : AverageMeter) (val : ℚ) (n : ℚ) :
    Option AverageMeter :=
  let sum := m.sum + val * n
  let count := m.count + n
  if count = 0 then none
  else some { val := val, avg := sum / count, sum := sum, count := count }

/-- A sequence of `update` calls, each `(val, n)`, applied left to right;
`none` as soon as one raises. -/
def AverageMeter.updates (m : AverageMeter) :
    List (ℚ × ℚ) → Option AverageMeter
  | [] => some m
  | c :: cs => (m.update c.1 c.2).bind (fun m2 => m2.updates cs)

namespace Memory

/-- C9: the base `Memory` compensation strategy is the identity — `compensate`
returns its tensor unchanged for any extra arguments, `initialize` and
`update` have no effect, and `state_dict()` returns `None`. -/
theorem base_memory_is_identity :
    (∀ (τ α : Type) (t : τ) (args : List α), compensate t args = t) ∧
    (∀ (α : Type) (args : List α), init args = () ∧ update args = ()) ∧
    (∀ (σ : Type), (state_dict : Option σ) = none) :=
  ⟨fun _ _ _ _ => rfl, fun _ _ => ⟨rfl, rfl⟩, fun _ => rfl⟩

end Memory

/-- C6: every item dequeued by `ServerConnector.deal_queue` produces exactly
one send, to rank 0, with the dequeued message code and payload unchanged;
only the sender rank is dropped. -/
theorem serverConnector_forwards_unchanged (items : List QueueItem) :
    (serverDealQueue items).length = items.length ∧
    ∀ (i : Nat) (it : QueueItem), items[i]? = some it →
      (serverDealQueue items)[i]? =
        some { dst := 0, message_code := it.message_code,
               content := it.payload } := by
  constructor
  · exact List.length_map _ _
  · intro i it h
    simp [serverDealQueue, List.getElem?_map, h, serverDealQueueStep]

/-- Witness for C6 at a concrete queue item. -/
theorem serverConnector_forwards_unchanged_witness :
    ([⟨5, MessageCode.ParameterUpdate, [Tensor.blob 1]⟩] : List QueueItem)[0]? =
        some ⟨5, MessageCode.ParameterUpdate, [Tensor.blob 1]⟩ ∧
    (serverDealQueue [⟨5, MessageCode.ParameterUpdate, [Tensor.blob 1]⟩])[0]? =
        some ⟨0, MessageCode.ParameterUpdate, [Tensor.blob 1]⟩ :=
  ⟨by decide,
   (serverConnector_forwards_unchanged
      [⟨5, MessageCode.ParameterUpdate, [Tensor.blob 1]⟩]).2 0
      ⟨5, MessageCode.ParameterUpdate, [Tensor.blob 1]⟩ (by decide)⟩

/-- C5, counterexample: entering `main_loop` with `setup` not yet completed
(a `ClientConnector` whose `coordinator` is still `None`; a fresh
`ServerConnector`) does not fail with `LifecycleViolation`: `ClientConnector.
main_loop` simply performs `setup()` itself and proceeds, and `ServerConnector.
main_loop` proceeds with no check at all. -/
theorem mainLoop_before_setup_does_not_fail :
    clientConnectorMainLoopEntry 1 (fun _ => (0, MessageCode.ParameterUpdate, []))
        { coordinator := none, handler := none } =
      Except.ok { coordinator := some (Coordinator.mk []),
                  handler := none } ∧
    clientConnectorMainLoopEntry 1 (fun _ => (0, MessageCode.ParameterUpdate, []))
        { coordinator := none, handler := none } ≠
      Except.error ConnError.lifecycleViolation ∧
    serverConnectorMainLoopEntry { watching_queue_started := false } =
      Except.ok { watching_queue_started := true } ∧
    serverConnectorMainLoopEntry { watching_queue_started := false } ≠
      Except.error ConnError.lifecycleViolation := by
  refine ⟨rfl, ?_, rfl, ?_⟩
  · intro h
    exact Except.noConfusion h
  · intro h
    exact Except.noConfusion h

/-- C5, amended: neither Connector checks lifecycle order, and no
`LifecycleViolation` failure exists — `ClientConnector.main_loop`
unconditionally performs `setup()` itself as its first action (building the
Coordinator from the handshake before the receive loop starts), and
`ServerConnector.main_loop` starts its queue-watching thread and enters its
receive loop with no setup precondition. -/
theorem mainLoop_entry_never_lifecycleViolation (ws : Nat) (recv : RecvEnv)
    (st : ClientConnectorState) (sst : ServerConnectorState) :
    clientConnectorMainLoopEntry ws recv st ≠
      Except.error ConnError.lifecycleViolation ∧
    (∀ coord h, (clientConnectorSetup ws recv st.handler).2 = some (coord, h) →
      clientConnectorMainLoopEntry ws recv st =
        Except.ok { coordinator := some coord, handler := h }) ∧
    serverConnectorMainLoopEntry sst =
      Except.ok { sst with watching_queue_started := true } := by
  refine ⟨?_, ?_, rfl⟩
  · intro hcontra
    unfold clientConnectorMainLoopEntry at hcontra
    cases hsetup : (clientConnectorSetup ws recv st.handler).2 with
    | none => rw [hsetup] at hcontra; simp at hcontra
    | some v =>
      obtain ⟨coord, h⟩ := v
      rw [hsetup] at hcontra
      simp at hcontra
  · intro coord h hsetup
    unfold clientConnectorMainLoopEntry
    rw [hsetup]

/-- Witness for the amended C5 at a concrete world size and transcript. -/
theorem mainLoop_entry_never_lifecycleViolation_witness :
    (clientConnectorSetup 2 (fun _ => (0, MessageCode.ParameterUpdate,
        [Tensor.i32 [11]])) none).2 =
      some (Coordinator.mk [(1, [11])], none) ∧
    clientConnectorMainLoopEntry 2 (fun _ => (0, MessageCode.ParameterUpdate,
        [Tensor.i32 [11]])) { coordinator := none, handler := none } =
      Except.ok { coordinator := some (Coordinator.mk [(1, [11])]),
                  handler := none } :=
  ⟨by decide,
   (mainLoop_entry_never_lifecycleViolation 2
      (fun _ => (0, MessageCode.ParameterUpdate, [Tensor.i32 [11]]))
      { coordinator := none, handler := none }
      { watching_queue_started := false }).2.1
      (Coordinator.mk [(1, [11])]) none (by decide)⟩

/-- Shape of a successful `map_id_list` result: one group per distinct owning
rank (in order of first appearance), each group being the input filtered to
the ids that rank owns. -/
theorem map_id_list_some_eq (c : Coordinator) (ids : List Int)
    (groups : List (Nat × List Int)) (h : c.map_id_list ids = some groups) :
    groups = (ids.filterMap c.owner).dedup.map
      (fun r => (r, ids.filter (fun i => c.owner i = some r))) := by
  unfold Coordinator.map_id_list at h
  split at h
  · exact (Option.some.inj h).symm
  · exact Option.noConfusion h

/-- C8: `map_id_list` is a pure function of the built mapping — every group it
returns preserves the relative order of the input ids (each group is a
sublist of the input, namely the input filtered to that rank's ids), and two
coordinators with the same mapping give identical results on the same input
(no hidden state). -/
theorem map_id_list_pure_and_order_preserving (c : Coordinator)
    (ids : List Int) :
    (∀ groups, c.map_id_list ids = some groups →
      ∀ r g, (r, g) ∈ groups →
        g = ids.filter (fun i => c.owner i = some r) ∧ g.Sublist ids) ∧
    (∀ c' : Coordinator, c.assignment = c'.assignment →
      c.map_id_list ids = c'.map_id_list ids) := by
  constructor
  · intro groups hg r g hmem
    rw [map_id_list_some_eq c ids groups hg] at hmem
    rcases List.mem_map.mp hmem with ⟨r0, _, heq⟩
    obtain ⟨h1, h2⟩ := Prod.mk.injEq .. ▸ heq
    subst h1
    subst h2
    exact ⟨rfl, List.filter_sublist _⟩
  · intro c' hass
    have hc : c = c' := by
      cases c
      cases c'
      cases hass
      rfl
    rw [hc]

/-- Witness for C8: the spec's fan-out mapping (`3, 7` on rank 2, `9` on
rank 5); the rank-2 group `[3, 7]` is the input filtered to rank 2's ids and
a sublist of the input `[3, 7, 9]`. -/
theorem map_id_list_pure_and_order_preserving_witness :
    (Coordinator.mk [(2, [3, 7]), (5, [9])]).map_id_list [3, 7, 9] =
      some [(2, [3, 7]), (5, [9])] ∧
    (([3, 7] : List Int) =
      ([3, 7, 9] : List Int).filter
        (fun i => (Coordinator.mk [(2, [3, 7]), (5, [9])]).owner i = some 2) ∧
      ([3, 7] : List Int).Sublist [3, 7, 9]) :=
  ⟨by decide,
   (map_id_list_pure_and_order_preserving
      (Coordinator.mk [(2, [3, 7]), (5, [9])]) [3, 7, 9]).1
     [(2, [3, 7]), (5, [9])] (by decide) 2 [3, 7] (by decide)⟩

/-- C1: on a dequeued item whose leading payload element is an id list,
`ClientConnector.deal_queue` splits it from the remaining payload, groups the
ids by owning rank via `map_id_list`, and issues exactly one send per
resulting rank — the number of sends is the number of distinct owning ranks,
the destination ranks are pairwise distinct — each send carrying that rank's
id subset as an int32 tensor followed by the remaining payload, with the
original message code. -/
theorem clientConnector_one_send_per_rank (coord : Coordinator)
    (item : QueueItem) (ids : List Int) (rest : List Tensor)
    (groups : List (Nat × List Int))
    (hpay : item.payload = Tensor.i32 ids :: rest)
    (hmap : coord.map_id_list ids = some groups) :
    clientDealQueueStep coord item =
      some (groups.map (fun p =>
        { dst := p.1, message_code := item.message_code,
          content := Tensor.i32 (p.2.map toInt32) :: rest })) ∧
    (groups.map Prod.fst).Nodup ∧
    groups.length = (ids.filterMap coord.owner).dedup.length ∧
    ∀ p ∈ groups, p.2 = ids.filter (fun i => coord.owner i = some p.1) := by
  have hshape := map_id_list_some_eq coord ids groups hmap
  refine ⟨?_, ?_, ?_, ?_⟩
  · rcases item with ⟨s, mc, pay⟩
    dsimp only at hpay ⊢
    subst hpay
    simp [clientDealQueueStep, hmap]
  · have hfst : groups.map Prod.fst = (ids.filterMap coord.owner).dedup := by
      rw [hshape, List.map_map]
      exact List.map_id _
    rw [hfst]
    exact List.nodup_dedup _
  · rw [hshape]
    exact List.length_map _ _
  · intro p hp
    rw [hshape] at hp
    rcases List.mem_map.mp hp with ⟨r0, _, heq⟩
    obtain ⟨h1, h2⟩ := Prod.mk.injEq .. ▸ heq
    subst h1
    rw [← h2]

/-- Witness for C1: the spec's fan-out example — a broadcast addressed to ids
`{3, 7, 9}` with `3, 7` on rank 2 and `9` on rank 5 yields exactly two sends,
one to rank 2 carrying `[3, 7]` and one to rank 5 carrying `[9]`, never
three. -/
theorem clientConnector_one_send_per_rank_witness :
    clientDealQueueStep (Coordinator.mk [(2, [3, 7]), (5, [9])])
        ⟨0, MessageCode.ParameterUpdate, [Tensor.i32 [3, 7, 9], Tensor.blob 7]⟩ =
      some [⟨2, MessageCode.ParameterUpdate, [Tensor.i32 [3, 7], Tensor.blob 7]⟩,
            ⟨5, MessageCode.ParameterUpdate, [Tensor.i32 [9], Tensor.blob 7]⟩] ∧
    (([(2, [3, 7]), (5, [9])] : List (Nat × List Int)).map Prod.fst).Nodup :=
  have h := clientConnector_one_send_per_rank
    (Coordinator.mk [(2, [3, 7]), (5, [9])])
    ⟨0, MessageCode.ParameterUpdate, [Tensor.i32 [3, 7, 9], Tensor.blob 7]⟩
    [3, 7, 9] [Tensor.blob 7] [(2, [3, 7]), (5, [9])] rfl (by decide)
  ⟨h.1.trans (by decide), h.2.1⟩

/-- The setup receive loop, when every declaration is well formed, polls
exactly the given ranks in order and collects one identity per rank. -/
theorem clientSetupLoop_all_ok (recv : RecvEnv) (l : List Nat)
    (h : ∀ r ∈ l, (recvIdentity recv r).isSome) :
    clientSetupLoop recv l =
      (l, some (l.map (fun r => (r, (recvIdentity recv r).getD 0)))) := by
  induction l with
  | nil => rfl
  | cons r rs ih =>
    have hr := h r (List.mem_cons_self r rs)
    obtain ⟨v, hv⟩ := Option.isSome_iff_exists.mp hr
    have hrest := ih (fun x hx => h x (List.mem_cons_of_mem r hx))
    simp [clientSetupLoop, hv, hrest]

/-- C2: `ClientConnector.setup` performs exactly one blocking receive of an
identity declaration from every rank in `[1, world_size)`, in increasing rank
order, builds the Coordinator from the resulting one-integer-per-rank map
(which succeeds when no two ranks declare the same LogicalId), and, when a
handler is attached, stores the Coordinator's total client count in the
handler's `client_num_in_total` field. -/
theorem clientConnector_setup_handshake (ws : Nat) (recv : RecvEnv)
    (handler : Option Handler)
    (hok : ∀ r ∈ List.range' 1 (ws - 1), (recvIdentity recv r).isSome)
    (hdistinct : ((List.range' 1 (ws - 1)).map
      (fun r => (recvIdentity recv r).getD 0)).Nodup) :
    ∃ coord,
      Coordinator.ofRankIdMap ((List.range' 1 (ws - 1)).map
        (fun r => (r, (recvIdentity recv r).getD 0))) = some coord ∧
      clientConnectorSetup ws recv handler =
        (List.range' 1 (ws - 1),
         some (coord, handler.map
           (fun h => { h with client_num_in_total := coord.total }))) := by
  have hsnd : (((List.range' 1 (ws - 1)).map
      (fun r => (r, (recvIdentity recv r).getD 0))).map Prod.snd).Nodup := by
    rw [List.map_map]
    exact hdistinct
  have hbuild : Coordinator.ofRankIdMap ((List.range' 1 (ws - 1)).map
      (fun r => (r, (recvIdentity recv r).getD 0))) =
      some ⟨((List.range' 1 (ws - 1)).map
        (fun r => (r, (recvIdentity recv r).getD 0))).map
          (fun p => (p.1, [p.2]))⟩ := by
    unfold Coordinator.ofRankIdMap
    rw [if_pos hsnd]
  refine ⟨_, hbuild, ?_⟩
  simp [clientConnectorSetup, clientSetupLoop_all_ok recv _ hok, hbuild]

/-- Witness for C2: world size 3, each rank `r` declaring identity `r` (all
distinct); setup receives from ranks 1 then 2, builds the Coordinator over
both, and sets the handler's `client_num_in_total` to its total of 2. -/
theorem clientConnector_setup_handshake_witness :
    (∀ r ∈ List.range' 1 2, (recvIdentity
        (fun r => (0, MessageCode.ParameterUpdate, [Tensor.i32 [(r : Int)]]))
        r).isSome) ∧
    ((List.range' 1 2).map (fun r => (recvIdentity
        (fun r => (0, MessageCode.ParameterUpdate, [Tensor.i32 [(r : Int)]]))
        r).getD 0)).Nodup ∧
    (∃ coord,
      Coordinator.ofRankIdMap ((List.range' 1 2).map
        (fun r => (r, (recvIdentity
          (fun r => (0, MessageCode.ParameterUpdate, [Tensor.i32 [(r : Int)]]))
          r).getD 0))) = some coord ∧
      clientConnectorSetup 3
          (fun r => (0, MessageCode.ParameterUpdate, [Tensor.i32 [(r : Int)]]))
          (some ⟨0⟩) =
        (List.range' 1 2,
         some (coord, (some ⟨0⟩ : Option Handler).map
           (fun h => { h with client_num_in_total := coord.total })))) :=
  ⟨by decide, by decide,
   clientConnector_setup_handshake 3
     (fun r => (0, MessageCode.ParameterUpdate, [Tensor.i32 [(r : Int)]]))
     (some ⟨0⟩) (by decide) (by decide)⟩

/-- C3: in both client state machines, an `Exit` envelope terminates the
process before any further send — over any finite message sequence, no
`ParameterUpdate` send ever appears in the trace after an `exited` event. -/
theorem exit_stops_before_any_send :
    (∀ (M : Type) (train : M → Tensor → M) (ser : M → Tensor) (st : M)
        (msgs : List (Nat × MessageCode × List Tensor)),
      noParamUpdateAfterExit (passiveRun train ser st msgs) = true) ∧
    (∀ (M : Type) (train : Option Nat → M → Tensor → M) (ser : M → Tensor)
        (epochs : Option Nat) (st : ActiveState M)
        (msgs : List (Nat × MessageCode × List Tensor)),
      noParamUpdateAfterExit (activeRun train ser epochs st msgs) = true) := by
  constructor
  · intro M train ser st msgs
    induction msgs generalizing st with
    | nil => rfl
    | cons m ms ih =>
      rcases m with ⟨s, code, payload⟩
      by_cases hc : code = MessageCode.Exit
      · subst hc
        simp [passiveRun, passiveRunIter, noParamUpdateAfterExit]
      · cases payload with
        | nil => simp [passiveRun, passiveRunIter, hc, noParamUpdateAfterExit]
        | cons p ps =>
          simp [passiveRun, passiveRunIter, hc, noParamUpdateAfterExit, ih]
  · intro M train ser epochs st msgs
    induction msgs generalizing st with
    | nil => rfl
    | cons m ms ih =>
      rcases m with ⟨s, code, payload⟩
      by_cases hc : code = MessageCode.Exit
      · subst hc
        simp [activeRun, activeRunIter, noParamUpdateAfterExit,
          ClientEvent.isParamUpdateSend]
      · match payload with
        | [] =>
          simp [activeRun, activeRunIter, hc, noParamUpdateAfterExit]
        | [p] =>
          simp [activeRun, activeRunIter, hc, noParamUpdateAfterExit]
        | p :: g :: ps =>
          simp [activeRun, activeRunIter, hc, noParamUpdateAfterExit, ih]

/-- C7: on a non-`Exit` envelope with a nonempty payload, one iteration of
`ClientPassiveManager.run` first invokes the handler's training step on the
first payload element and then issues exactly one send — a `ParameterUpdate`
to rank 0 carrying the serialized updated model — and nothing else. -/
theorem passive_client_train_then_single_send {M : Type}
    (train : M → Tensor → M) (ser : M → Tensor) (st : M)
    (sender : Nat) (code : MessageCode) (payload : List Tensor)
    (p : Tensor) (rest : List Tensor)
    (hcode : code ≠ MessageCode.Exit) (hpay : payload = p :: rest) :
    passiveRunIter train ser st (sender, code, payload) =
      StepResult.ok
        [ClientEvent.trained p,
         ClientEvent.sent 0 MessageCode.ParameterUpdate [ser (train st p)]]
        (train st p) := by
  subst hpay
  simp [passiveRunIter, hcode]

/-- Witness for C7 at a concrete handler and payload. -/
theorem passive_client_train_then_single_send_witness :
    passiveRunIter (fun (s : Nat) (_ : Tensor) => s + 1)
        (fun s => Tensor.blob s) 0
        (0, MessageCode.ParameterUpdate, [Tensor.blob 5]) =
      StepResult.ok
        [ClientEvent.trained (Tensor.blob 5),
         ClientEvent.sent 0 MessageCode.ParameterUpdate [Tensor.blob 1]] 1 :=
  have h := passive_client_train_then_single_send
    (fun (s : Nat) (_ : Tensor) => s + 1) (fun s => Tensor.blob s) 0
    0 MessageCode.ParameterUpdate [Tensor.blob 5] (Tensor.blob 5) []
    (by decide) rfl
  h.trans (by decide)

/-- C4: on a non-`Exit` envelope, `ClientActiveManager` carries the generation
timestamp (the second payload element) through unmodified — the
`ParameterUpdate` sent by the subsequent `synchronize()` has exactly that
value as its second buffer, after the serialized model parameters. -/
theorem active_client_carries_gen_time {M : Type}
    (train : Option Nat → M → Tensor → M) (ser : M → Tensor)
    (epochs : Option Nat) (st : ActiveState M)
    (sender : Nat) (code : MessageCode) (payload : List Tensor)
    (p g : Tensor) (rest : List Tensor)
    (hcode : code ≠ MessageCode.Exit) (hpay : payload = p :: g :: rest) :
    activeRunIter train ser epochs st (sender, code, payload) =
      StepResult.ok
        [ClientEvent.sent 0 MessageCode.ParameterRequest [],
         ClientEvent.trained p,
         ClientEvent.sent 0 MessageCode.ParameterUpdate
           [ser (train epochs st.model p), g]]
        { model := train epochs st.model p, model_gen_time := some g } := by
  subst hpay
  simp [activeRunIter, hcode]

/-- Witness for C4 at a concrete handler, payload and timestamp. -/
theorem active_client_carries_gen_time_witness :
    activeRunIter (fun (_ : Option Nat) (s : Nat) (_ : Tensor) => s + 1)
        (fun s => Tensor.blob s) (some 2) ⟨0, none⟩
        (0, MessageCode.ParameterUpdate, [Tensor.blob 5, Tensor.blob 9]) =
      StepResult.ok
        [ClientEvent.sent 0 MessageCode.ParameterRequest [],
         ClientEvent.trained (Tensor.blob 5),
         ClientEvent.sent 0 MessageCode.ParameterUpdate
           [Tensor.blob 1, Tensor.blob 9]]
        ⟨1, some (Tensor.blob 9)⟩ :=
  have h := active_client_carries_gen_time
    (fun (_ : Option Nat) (s : Nat) (_ : Tensor) => s + 1)
    (fun s => Tensor.blob s) (some 2) ⟨0, none⟩
    0 MessageCode.ParameterUpdate [Tensor.blob 5, Tensor.blob 9]
    (Tensor.blob 5) (Tensor.blob 9) [] (by decide) rfl
  h.trans (by decide)

/-- Invariant of a run of `update` calls with positive `n`, generalized over
the starting state: all updates succeed and the statistics accumulate. -/
theorem averageMeter_updates_pos (calls : List (ℚ × ℚ)) :
    ∀ (m : AverageMeter), 0 ≤ m.count → (∀ c ∈ calls, 0 < c.2) →
    ∃ m', m.updates calls = some m' ∧
      m'.count = m.count + (calls.map Prod.snd).sum ∧
      m'.sum = m.sum + (calls.map (fun c => c.1 * c.2)).sum ∧
      (∀ lc, calls.getLast? = some lc → m'.val = lc.1) ∧
      (calls = [] → m' = m) ∧
      (calls ≠ [] → m'.avg = m'.sum / m'.count) ∧
      0 ≤ m'.count := by
  induction calls with
  | nil =>
    intro m hm _
    exact ⟨m, rfl, by simp, by simp, by simp, fun _ => rfl,
      fun h => absurd rfl h, hm⟩
  | cons c cs ih =>
    intro m hm hpos
    have hc2 : 0 < c.2 := hpos c (List.mem_cons_self c cs)
    have hcount : m.count + c.2 ≠ 0 := by
      have : 0 < m.count + c.2 := by linarith
      exact ne_of_gt this
    have hupd : m.update c.1 c.2 =
        some ⟨c.1, (m.sum + c.1 * c.2) / (m.count + c.2),
              m.sum + c.1 * c.2, m.count + c.2⟩ := by
      simp [AverageMeter.update, hcount]
    obtain ⟨m', hupds, hcnt, hsum, hval, hnil, havg, hge⟩ :=
      ih ⟨c.1, (m.sum + c.1 * c.2) / (m.count + c.2),
          m.sum + c.1 * c.2, m.count + c.2⟩
        (by dsimp; linarith) (fun x hx => hpos x (List.mem_cons_of_mem c hx))
    refine ⟨m', ?_, ?_, ?_, ?_, ?_, ?_, hge⟩
    · simp [AverageMeter.updates, hupd, hupds]
    · rw [hcnt]
      dsimp
      ring
    · rw [hsum]
      dsimp
      ring
    · intro lc hlc
      cases cs with
      | nil =>
        have hm' := hnil rfl
        subst hm'
        simp only [List.getLast?_singleton] at hlc
        rw [← Option.some.inj hlc]
      | cons c2 cs2 =>
        rw [List.getLast?_cons_cons] at hlc
        exact hval lc hlc
    · intro habs
      exact absurd habs (List.cons_ne_nil c cs)
    · intro _
      cases cs with
      | nil =>
        have hm' := hnil rfl
        subst hm'
        rfl
      | cons c2 cs2 => exact havg (List.cons_ne_nil c2 cs2)

/-- C10, counterexample: the first `update` call after reset with `n = 0`
leaves `count` at zero, so `avg = sum / count` raises `ZeroDivisionError` —
the claimed post-state does not exist for that non-empty call sequence. -/
theorem averageMeter_update_zero_raises :
    (AverageMeter.reset ⟨1, 1, 1, 1⟩).updates [(1, 0)] = none := by
  simp [AverageMeter.updates, AverageMeter.update, AverageMeter.reset]

/-- C10, amended: after reset followed by any non-empty sequence of
`update(val, n)` calls with every `n` positive (so no division by zero is
hit), `count` is the sum of the `n`s, `sum` is the sum of `val * n`, `val` is
the last `val` argument, and `avg` is `sum / count`; `reset` restores `val`,
`avg`, `sum` to 0.0 and `count` to 0. -/
theorem averageMeter_invariant (m0 : AverageMeter) (calls : List (ℚ × ℚ))
    (hne : calls ≠ []) (hpos : ∀ c ∈ calls, 0 < c.2) :
    m0.reset = { val := 0, avg := 0, sum := 0, count := 0 } ∧
    ∃ m, m0.reset.updates calls = some m ∧
      m.count = (calls.map Prod.snd).sum ∧
      m.sum = (calls.map (fun c => c.1 * c.2)).sum ∧
      m.val = (calls.getLast hne).1 ∧
      m.avg = m.sum / m.count := by
  obtain ⟨m, hupds, hcnt, hsum, hval, _, havg, _⟩ :=
    averageMeter_updates_pos calls (m0.reset) (le_refl 0) hpos
  refine ⟨rfl, m, hupds, by simpa [AverageMeter.reset] using hcnt,
    by simpa [AverageMeter.reset] using hsum, ?_, havg hne⟩
  exact hval _ (List.getLast?_eq_getLast_of_ne_nil hne)

/-- Witness for the amended C10: the calls `update(2, 3); update(4, 1)` give
`count = 4`, `sum = 10`, `val = 4`, `avg = 10 / 4`. -/
theorem averageMeter_invariant_witness :
    (([(2, 3), (4, 1)] : List (ℚ × ℚ)) ≠ [] ∧
     ∀ c ∈ ([(2, 3), (4, 1)] : List (ℚ × ℚ)), 0 < c.2) ∧
    ((⟨9, 9, 9, 9⟩ : AverageMeter).reset =
        { val := 0, avg := 0, sum := 0, count := 0 } ∧
     ∃ m, (⟨9, 9, 9, 9⟩ : AverageMeter).reset.updates [(2, 3), (4, 1)] =
         some m ∧
       m.count = (([(2, 3), (4, 1)] : List (ℚ × ℚ)).map Prod.snd).sum ∧
       m.sum = (([(2, 3), (4, 1)] : List (ℚ × ℚ)).map
         (fun c => c.1 * c.2)).sum ∧
       m.val = (([(2, 3), (4, 1)] : List (ℚ × ℚ)).getLast
         (List.cons_ne_nil _ _)).1 ∧
       m.avg = m.sum / m.count) :=
  ⟨⟨List.cons_ne_nil _ _, by norm_num⟩,
   averageMeter_invariant ⟨9, 9, 9, 9⟩ [(2, 3), (4, 1)]
     (List.cons_ne_nil _ _) (by norm_num)⟩
